import Mathlib

/-!
Verification of the `pyang-accessors` entry-point scanner and accessor
generator (`src/pyang_accessors/`): a shallow embedding of `scan.py`,
`predicates.py`, `generators.py` and `registry.py`, followed by theorems
about the embedded code.

Conventions of the embedding:
* A pyang `Statement` is modelled by the inductive `Statement` below, with
  `keyword`, `arg` (the empty string stands for Python `None`), the raw
  `substmts`, the resolved-children view `i_children` and the
  `i_is_validated` marker (`hasattr` and truthiness collapse to one `Bool`).
* Python lists/dicts become Lean lists / insertion-ordered association
  lists; Python object copies (`Statement.copy`, `EntryPoint.copy`) are the
  identity under Lean's value semantics.
* Exceptions become `Except` values (`ScanError`, `AddErr`).
* Truthiness tests are translated explicitly: an empty string and an empty
  list are falsy, `None` is falsy.
* External-library helpers (`pyangext.utils.find/select/search_one`,
  `inflection.singularize/dasherize/parameterize`) are embedded from their
  documented behaviour, since their sources are outside this repository.
-/

/-- Insertion-ordered association-list lookup (Python `dict.get`). -/
def alGet {α : Type} : List (String × α) → String → Option α
  | [], _ => none
  | (k, v) :: t, key => if k = key then some v else alGet t key

/-- Insertion-ordered association-list update (Python `dict[k] = v`):
replaces the binding in place if the key is present, else appends. -/
def alSet {α : Type} : List (String × α) → String → α → List (String × α)
  | [], key, v => [(key, v)]
  | (k, w) :: t, key, v =>
    if k = key then (k, v) :: t else (k, w) :: alSet t key v

/-- Does `hay` start with `needle`? (support for the Python `in` operator) -/
def chStarts : List Char → List Char → Bool
  | [], _ => true
  | _ :: _, [] => false
  | a :: as, b :: bs => a == b && chStarts as bs

/-- Does `hay` contain `needle` as a contiguous run? -/
def chContains (needle : List Char) : List Char → Bool
  | [] => needle.isEmpty
  | c :: t => chStarts needle (c :: t) || chContains needle t

/-- Python's substring test `needle in hay`. -/
def pyIn (needle hay : String) : Bool :=
  chContains needle.data hay.data

/-- Leftmost non-overlapping replacement of `pat` by `rep` (Python
`str.replace`); the `Nat` argument counts pattern characters still to be
skipped after a match. -/
def chRepGo (pat rep : List Char) : List Char → Nat → List Char
  | [], _ => []
  | _ :: t, n + 1 => chRepGo pat rep t n
  | c :: t, 0 =>
    if !pat.isEmpty && chStarts pat (c :: t) then
      rep ++ chRepGo pat rep t (pat.length - 1)
    else c :: chRepGo pat rep t 0

/-- Python `s.replace(pat, rep)`. -/
def strReplace (s pat rep : String) : String :=
  String.mk (chRepGo pat.data rep.data s.data 0)

/-- Python `s.split(' ')`: split on every single space, keeping empty
pieces. -/
def chSplitSp : List Char → List Char → List String
  | [], acc => [String.mk acc.reverse]
  | c :: t, acc =>
    if c == ' ' then String.mk acc.reverse :: chSplitSp t []
    else chSplitSp t (c :: acc)

def pySplitSpace (s : String) : List String :=
  chSplitSp s.data []

/-- Python `a or b` on an optional string: `b` when `a` is `None` or empty. -/
def pyOr (a : Option String) (b : String) : String :=
  match a with
  | some s => if s = "" then b else s
  | none => b

/-- Truthiness of an optional string. -/
def optTruthy (a : Option String) : Bool :=
  match a with
  | some s => s ≠ ""
  | none => false

/-- A pyang statement: node kind (`keyword`), its name or value (`arg`,
`""` for Python `None`), raw substatements, the resolved-children view
`i_children`, and the `i_is_validated` marker. -/
inductive Statement : Type where
  | mk (keyword : String) (arg : String) (substmts : List Statement)
       (iChildren : List Statement) (iIsValidated : Bool)

def Statement.keyword : Statement → String
  | .mk k _ _ _ _ => k

def Statement.arg : Statement → String
  | .mk _ a _ _ _ => a

def Statement.substmts : Statement → List Statement
  | .mk _ _ s _ _ => s

def Statement.iChildren : Statement → List Statement
  | .mk _ _ _ c _ => c

def Statement.iIsValidated : Statement → Bool
  | .mk _ _ _ _ v => v

def Statement.withArg (s : Statement) (a : String) : Statement :=
  match s with
  | .mk k _ sub ch v => .mk k a sub ch v

def Statement.withKeyword (s : Statement) (k : String) : Statement :=
  match s with
  | .mk _ a sub ch v => .mk k a sub ch v

/-- Embedding of the `pyang_builder` append: add one substatement at the end. -/
def Statement.appendSub (s : Statement) (child : Statement) : Statement :=
  match s with
  | .mk k a sub ch v => .mk k a (sub ++ [child]) ch v

/-- pyang `Statement.search_one`: first raw substatement with the keyword. -/
def searchOne (s : Statement) (kw : String) : Option Statement :=
  (s.substmts.filter (fun sub => sub.keyword == kw)).head?

/-- Embedding of `pyangext.utils.find` (external helper): substatements matching a
keyword and, when given, an argument; extension keywords are matched by
their unprefixed name (`ignore_prefix=True`), which the embedding renders
by storing extension keywords unprefixed. -/
def findStmts (s : Statement) (kw : String) (arg : Option String) : List Statement :=
  s.substmts.filter (fun sub =>
    sub.keyword == kw &&
      (match arg with
       | none => true
       | some a => sub.arg == a))

/-- Embedding of `pyangext.utils.select` (external helper): members of a statement list
with the given argument. -/
def select (stmts : List Statement) (arg : String) : List Statement :=
  stmts.filter (fun sub => sub.arg == arg)

-- definitions.py: operation identifiers and extension vocabulary

def READ_OP : String := "get"
def CHANGE_OP : String := "set"
def ITEM_ADD_OP : String := "add"
def ITEM_REMOVE_OP : String := "remove"
def MODIFIER_EXT : String := "modifier"
def ATOMIC : String := "atomic"
def ATOMIC_ITEM : String := "atomic-item"
def INCLUDE : String := "include"
def INCLUDE_ITEM : String := "include-item"
def ITEM_NAME : String := "item-name"

/-- Embedding of `pyangext.definitions.DATA_STATEMENTS` (external constant), modelled
from the spec's list of data node kinds
(container/list/leaf/leaf-list/anyxml/choice/case). -/
def DATA_STATEMENTS : List String :=
  ["container", "list", "leaf", "leaf-list", "anyxml", "choice", "case"]

-- predicates.py

def is_atomic (s : Statement) : Bool :=
  s.keyword == "leaf" || s.keyword == "anyxml" ||
    !(findStmts s MODIFIER_EXT (some ATOMIC)).isEmpty

def is_atomic_item (s : Statement) : Bool :=
  s.keyword == "leaf-list" ||
    !(findStmts s MODIFIER_EXT (some ATOMIC_ITEM)).isEmpty

def is_data (s : Statement) : Bool :=
  DATA_STATEMENTS.contains s.keyword

def is_included (s : Statement) : Bool :=
  !(findStmts s MODIFIER_EXT (some INCLUDE)).isEmpty

def is_included_item (s : Statement) : Bool :=
  !(findStmts s MODIFIER_EXT (some INCLUDE_ITEM)).isEmpty

def is_list (s : Statement) : Bool :=
  s.keyword == "list" || s.keyword == "leaf-list"

/-- Embedding of `predicates.is_read_only`: the source tests
`config and ('false' in config.arg)` — a substring test on the first
`config` substatement, not an equality test. -/
def is_read_only (s : Statement) : Bool :=
  match searchOne s "config" with
  | some config => pyIn "false" config.arg
  | none => false

def is_top_level (s : Statement) : Bool :=
  s.keyword == "module" || s.keyword == "submodule"

-- scan.py

def READ_ONLY_OPS : List String := [READ_OP]
def DEFAULT_OPS : List String := READ_ONLY_OPS ++ [CHANGE_OP]
def DEFAULT_ITEM_OPS : List String := DEFAULT_OPS ++ [ITEM_ADD_OP, ITEM_REMOVE_OP]

/-- Errors a generation run can raise: the validation-required
`AttributeError` (`'Invalid module %s. Was the module validated?'`) from
`ensure_validated`, the `IndexError` from `find_keys` when a `key`
statement names a child that does not exist, and the `AttributeError`
from `_create_namespace`/`_create_prefix` when the input module lacks
the corresponding header statement. -/
inductive ScanError : Type where
  | notValidated
  | missingKeyNode
  | missingHeader
deriving DecidableEq

/-- Embedding of `scan.ensure_validated`: fail unless the statement carries a truthy
`i_is_validated` marker. -/
def ensure_validated (s : Statement) : Except ScanError Unit :=
  if s.iIsValidated then .ok () else .error .notValidated

/-- Embedding of `scan.find_keys`: `None` when no `key` statement exists, else the
child node selected for each space-separated name in the `key` argument
(raising when a named child is missing). -/
def find_keys (s : Statement) : Except ScanError (Option (List Statement)) :=
  match searchOne s "key" with
  | none => .ok none
  | some key =>
    (pySplitSpace key.arg).mapM (fun n =>
      match (select s.iChildren n).head? with
      | some st => Except.ok st
      | none => Except.error ScanError.missingKeyNode) |>.map some

/-- Models the external `inflection.singularize` from its
documented behaviour on the regular plural names this development uses:
strip one trailing `s` (the library's last-resort `s$ -> ''` rule). -/
def singularize (w : String) : String :=
  if w.data.getLast? == some 's' then String.mk w.data.dropLast else w

/-- Embedding of `scan.find_item_name`: explicit `item-name` annotation, else the
singularized list name. -/
def find_item_name (s : Statement) : String :=
  match (findStmts s ITEM_NAME none).head? with
  | some st => st.arg
  | none => singularize s.arg

/-- The scanner's entry-point record (`scan.EntryPoint`);
`parentKeys` is the `parent_keys` dict as an insertion-ordered
association list. -/
structure EntryPoint : Type where
  path : List String
  payload : Statement
  operations : List String
  parentKeys : List (String × List Statement)
  ownKeys : List Statement

/-- Source `EntryPoint.copy` deep-copies the payload and the mutable containers;
under value semantics this is the identity. -/
def EntryPoint.copy (e : EntryPoint) : EntryPoint := e

/-- Scanner configuration (`Scanner.__init__`): default-key template and
name, and the leaf-list value-leaf name.  The `name_composer` argument of
the source constructor is stored but never used by `scan.py`. -/
structure ScannerCfg : Type where
  keyTemplate : Statement
  keyName : Option String
  valueArg : String

/-- Embedding of `Scanner.default_key`: render the key template, renaming it when a
default key name is configured. -/
def default_key (cfg : ScannerCfg) : Statement :=
  match cfg.keyName with
  | some n => cfg.keyTemplate.withArg n
  | none => cfg.keyTemplate

/-- Embedding of `Scanner.singularize_list`: one-item payload — a leaf-list becomes a
container wrapping a value leaf that receives copies of the leaf-list's
substatements; a list is copied and re-kinded as a container. -/
def singularize_list (cfg : ScannerCfg) (s : Statement) (itemName : String) : Statement :=
  if s.keyword == "leaf-list" then
    Statement.mk "container" itemName
      [Statement.mk "leaf" cfg.valueArg s.substmts [] false] [] false
  else
    (s.withKeyword "container").withArg itemName

/-- The first component of `Scanner.scan_list`'s result: the sentinel
`_PRUNE` or the list's key nodes. -/
inductive KeysOrPrune : Type where
  | prune
  | keys (ks : List Statement)

/-- Embedding of `Scanner.scan_list`. -/
def scan_list (cfg : ScannerCfg) (s : Statement) (readOnly : Bool) :
    Except ScanError (KeysOrPrune × List EntryPoint × List String) :=
  match find_keys s with
  | .error e => .error e
  | .ok keyNodes =>
    let itemName := find_item_name s
    let accessorPath := [itemName]
    let atomicItem := is_atomic_item s
    let includeItem := is_included_item s
    -- `keys = key_nodes or [self.default_key()]`
    let keys : List Statement :=
      match keyNodes with
      | some (k :: ks) => k :: ks
      | _ => [default_key cfg]
    let entries : List EntryPoint :=
      if atomicItem || includeItem then
        let payload0 := singularize_list cfg s itemName
        -- `if not key_nodes: payload.append(keys[0])`
        let payload :=
          match keyNodes with
          | some (_ :: _) => payload0
          | _ => payload0.appendSub (default_key cfg)
        [{ path := accessorPath, payload := payload,
           operations := if readOnly then READ_ONLY_OPS else DEFAULT_ITEM_OPS,
           parentKeys := [], ownKeys := keys }]
      else []
    if atomicItem then .ok (.prune, entries, accessorPath)
    else .ok (.keys keys, entries, accessorPath)

/-- The default entry-point `Scanner.scan` prepares for a data node. -/
def defaultEntry (s : Statement) (readOnly : Bool) : EntryPoint :=
  { path := [s.arg], payload := s,
    operations := if readOnly then READ_ONLY_OPS else DEFAULT_OPS,
    parentKeys := [], ownKeys := [] }

/-- The per-child-entry step of `Scanner.scan`'s traversal loop:
truncate operations under a read-only parent, skip entries that target a
key leaf, record the parent's keys, and prefix the parent's path
segment.  `none` models the `continue`. -/
def processChild (readOnly : Bool) (keysOpt : Option (List Statement))
    (accessorPath : List String) (e : EntryPoint) : Option EntryPoint :=
  let e := if readOnly then { e with operations := READ_ONLY_OPS } else e
  match keysOpt with
  | some (k :: ks) =>
    let parentName := accessorPath.getLastD ""
    let nodeName := e.path.getLastD ""
    let keyNames := (k :: ks).map Statement.arg
    if keyNames.contains nodeName then none
    else
      some { e with
             parentKeys := alSet e.parentKeys parentName (k :: ks),
             path := accessorPath ++ e.path }
  -- `if keys:` is false for None and for an empty list alike
  | some [] => some { e with path := accessorPath ++ e.path }
  | none => some { e with path := accessorPath ++ e.path }

/-- The copy of the default entry emitted when the node carries the
`include` modifier (`entries.append(entry.copy())`). -/
def includeEntries (s : Statement) : List EntryPoint :=
  if is_included s then [(defaultEntry s (is_read_only s)).copy] else []

mutual
/-- Embedding of `Scanner.scan`. -/
def scan (cfg : ScannerCfg) : Statement → Except ScanError (List EntryPoint)
  | s@(.mk _ _ _ ch _) =>
    if is_top_level s then
      match ensure_validated s with
      | .error e => .error e
      | .ok _ =>
        match scanChildren cfg ch with
        | .error e => .error e
        | .ok rs => .ok rs.flatten
    else if !(is_data s) then .ok []
    else if is_atomic s then .ok [defaultEntry s (is_read_only s)]
    else
      match (if is_list s then (scan_list cfg s (is_read_only s)).map some else .ok none) with
      | .error e => .error e
      | .ok (some (.prune, le, _)) => .ok (includeEntries s ++ le)
      | .ok (some (.keys ks, le, ap)) =>
        -- list whose children are still traversed, with `keys` registered
        match scanChildren cfg ch with
        | .error e => .error e
        | .ok rs =>
          .ok (includeEntries s ++ le ++
            rs.flatten.filterMap (processChild (is_read_only s) (some ks) ap))
      | .ok none =>
        -- non-list data node: `keys` stays None, the path segment is the
        -- node's own name
        match scanChildren cfg ch with
        | .error e => .error e
        | .ok rs =>
          .ok (includeEntries s ++
            rs.flatten.filterMap (processChild (is_read_only s) none [s.arg]))

/-- The eager recursion of `Scanner.scan` over a children list. -/
def scanChildren (cfg : ScannerCfg) : List Statement → Except ScanError (List (List EntryPoint))
  | [] => .ok []
  | c :: cs =>
    match scan cfg c with
    | .error e => .error e
    | .ok r =>
      match scanChildren cfg cs with
      | .error e => .error e
      | .ok rs => .ok (r :: rs)
end

-- generators.py: RPCGenerator with its DEFAULT_CONFIG

def key_suffix : String := "id"
def data_suffix : String := "data"
def identification_suffix : String := "identification"
def response_suffix : String := "response"
def gen_suffix : String := "interface"
def default_response_name : String := "default-response"
def choice_name : String := "response"
def success_name : String := "success"
def failure_name : String := "failure"

def success_children_template : List Statement :=
  [.mk "leaf" "ok" [.mk "type" "boolean" [] [] false] [] false]

def failure_children_template : List Statement :=
  [.mk "leaf" "error-code"
     [.mk "type" "int32" [] [] false,
      .mk "description" "numeric code for the failure." [] [] false] [] false,
   .mk "leaf" "error-message"
     [.mk "type" "string" [] [] false,
      .mk "description" "textual description of failure." [] [] false] [] false]

def key_template : Statement :=
  .mk "leaf" "id" [.mk "type" "int32" [] [] false] [] false

/-- Models the external `inflection.dasherize`: replace underscores by
dashes. -/
def dasherize (w : String) : String :=
  String.mk (w.data.map (fun c => if c == '_' then '-' else c))

/-- The default `name_composer`: join the truthy fragments with `_`, then
dasherize. -/
def name_composer (names : List String) : String :=
  dasherize (String.intercalate "_" (names.filter (fun x => x ≠ "")))

def description_template : String := "Accessors interface for module: `\x7b\x7d`."

def warning_banner : String :=
  "--------------------- DO NOT MODIFY! ---------------------\n|                                                        |\n|  File automatically generated using `pyang-accessors`. |\n|                                                        |\n----------------------------------------------------------"

/-- The `Scanner` instance `transform` builds:
`Scanner(builder, self.key_template, self.name_composer, self.key_suffix,
self.value_arg)`. -/
def defaultScannerCfg : ScannerCfg :=
  { keyTemplate := key_template, keyName := some key_suffix, valueArg := "value" }

/-- Embedding of `RPCGenerator._prefix_keys`: for each key a renamed copy is built,
but the source appends the ORIGINAL key object (`prefixed.append(key)`,
generators.py line 203) and discards the copy, so the returned keys keep
their unprefixed names. -/
def prefix_keys (keys : List Statement) (pfx : String) : List Statement :=
  keys.map (fun key =>
    let _renamed := key.withArg (name_composer [pfx, key.arg])
    key)

/-- Embedding of `RPCGenerator._define_id_grouping`: name and key-leaf content of the
identification grouping of an entry point. -/
def define_id_grouping (entry : EntryPoint) : Option String × List Statement :=
  let path := entry.path
  let parentKeys := entry.parentKeys
  let keyedItems0 := path.filter (fun n => (alGet parentKeys n).isSome)
  let keyedItems :=
    if entry.ownKeys.isEmpty then keyedItems0
    else keyedItems0 ++ [path.getLastD ""]
  match keyedItems.getLast? with
  | none => (none, [])
  | some target =>
    let targetKeys :=
      match alGet parentKeys target with
      | some (k :: ks) => k :: ks
      | _ => entry.ownKeys
    let predecessorNames := path.takeWhile (fun n => n ≠ target)
    let predecessorKeys := parentKeys.foldl
      (fun acc p =>
        acc ++ (if predecessorNames.contains p.1 then prefix_keys p.2 p.1 else p.2))
      []
    let groupName := name_composer (predecessorNames ++ [target, identification_suffix])
    (some groupName, predecessorKeys ++ targetKeys)

def grouping_node (name : String) (content : List Statement) : Statement :=
  .mk "grouping" name content [] false

def uses_node (name : String) : Statement :=
  .mk "uses" name [] [] false

/-- Embedding of `RPCGenerator._create_and_append_grouping`: emit the grouping under
the output module unless its name is falsy or already registered. -/
def create_and_append_grouping (outSub : List Statement) (registry : List String)
    (name : Option String) (content : List Statement) :
    List Statement × List String :=
  match name with
  | some n =>
    if n ≠ "" && !(registry.contains n) then
      (outSub ++ [grouping_node n content], registry ++ [n])
    else (outSub, registry)
  | none => (outSub, registry)

/-- Embedding of `RPCGenerator._create_name`. -/
def create_name (module : Statement) (name : Option String) : String :=
  let moduleName := module.arg
  let joiner := if pyIn "_" moduleName then "_" else "-"
  pyOr name (String.intercalate joiner [moduleName, gen_suffix])

/-- Embedding of `RPCGenerator._create_namespace` (raises when the input module has no
`namespace` statement). -/
def create_namespace (module : Statement) (ns : Option String) :
    Except ScanError String :=
  match searchOne module "namespace" with
  | none => .error .missingHeader
  | some n =>
    let joiner := if pyIn "://" n.arg then "/" else ":"
    .ok (pyOr ns (String.intercalate joiner [n.arg, gen_suffix]))

/-- Embedding of `RPCGenerator._create_prefix` (raises when the input module has no
`prefix` statement). -/
def create_pfx (module : Statement) (pfx : Option String) :
    Except ScanError String :=
  match searchOne module "prefix" with
  | none => .error .missingHeader
  | some p =>
    let joiner := if pyIn "_" p.arg then "_" else "-"
    .ok (pyOr pfx (String.intercalate joiner [p.arg, gen_suffix]))

/-- Embedding of `pyangext.definitions.HEADER_STATEMENTS` (external constant),
modelled from the spec's list: organization, contact, description,
revision, etc. -/
def HEADER_STATEMENTS : List String :=
  ["organization", "contact", "description", "reference", "revision"]

/-- Embedding of `RPCGenerator._create_module_with_header`: output module name and the
initial substatement list (namespace, prefix, copied headers, generated
description and warning comment at the computed position). -/
def create_module_with_header (module : Statement) (name pfx ns : Option String) :
    Except ScanError (String × List Statement) :=
  let outName := create_name module name
  match create_pfx module pfx with
  | .error e => .error e
  | .ok outPfx =>
    match create_namespace module ns with
    | .error e => .error e
    | .ok outNs =>
      let base := [Statement.mk "namespace" outNs [] [] false,
                   Statement.mk "prefix" outPfx [] [] false]
      let hdr := HEADER_STATEMENTS.foldl
        (fun (acc : Nat × List Statement) h =>
          match searchOne module h with
          | none => acc
          | some node =>
            (if node.keyword ≠ "revision" then acc.1 + 1 else acc.1,
             acc.2 ++ [node]))
        (2, [])
      let subs := base ++ hdr.2
      let desc := Statement.mk "description"
        (strReplace description_template "\x7b\x7d" module.arg) [] [] false
      let comment := Statement.mk "_comment" warning_banner [] [] false
      .ok (outName, subs.take hdr.1 ++ desc :: comment :: subs.drop hdr.1)

/-- One operation iteration of `RPCGenerator.transform`'s RPC loop:
request/response grouping selection, grouping emission and the RPC node.
Note that the source never calls `_create_response_choice` here (the call
at generators.py line 582 is commented out) and never emits the
failure grouping: RPC outputs are plain `uses` of a response grouping. -/
def transformOp (entry : EntryPoint) (idGroup : Option String)
    (keys : List Statement) (dataGroup : String)
    (parentIdGroup : Option String) (parentIdContent : Option (List Statement))
    (acc : List Statement × List String) (operation : String) :
    List Statement × List String :=
  let rpcName := name_composer (operation :: entry.path)
  let isReadLike := operation == READ_OP || operation == ITEM_REMOVE_OP
  let step :=
    if isReadLike then
      -- READ/REMOVE: request is the identification grouping, response the
      -- data grouping (created on demand).
      let created := create_and_append_grouping acc.1 acc.2 (some dataGroup) [entry.payload]
      (created.1, created.2, idGroup, keys,
       some (name_composer (entry.path ++ [response_suffix])),
       [uses_node dataGroup])
    else
      -- CHANGE/ADD request: `parent_id_group or data_group`,
      -- `parent_id_content or entry.payload`.
      (acc.1, acc.2, some (pyOr parentIdGroup dataGroup),
       (match parentIdContent with
        | some (c :: cs) => c :: cs
        | _ => [entry.payload]),
       (none : Option String), ([] : List Statement))
  let (outSub, reg, requestName, requestContent, responseName, responseContent) := step
  let response :=
    if operation == CHANGE_OP then
      (some default_response_name, success_children_template)
    else if operation == ITEM_ADD_OP then
      (some (name_composer [rpcName, response_suffix]),
       match parentIdContent with
       | some (_ :: _) => entry.ownKeys
       | _ => [uses_node (idGroup.getD "")])
    else (responseName, responseContent)
  let (responseName, responseContent) := response
  let afterReq := create_and_append_grouping outSub reg requestName requestContent
  let afterResp := create_and_append_grouping afterReq.1 afterReq.2 responseName responseContent
  let inputPart :=
    if optTruthy requestName then
      [Statement.mk "input" "" [uses_node (requestName.getD "")] [] false]
    else []
  let outputPart :=
    if optTruthy responseName then
      [Statement.mk "output" "" [uses_node (responseName.getD "")] [] false]
    else []
  let rpc := Statement.mk "rpc" rpcName (inputPart ++ outputPart) [] false
  (afterResp.1 ++ [rpc], afterResp.2)

/-- One entry-point iteration of `RPCGenerator.transform`'s RPC loop. -/
def transformEntry (acc : List Statement × List String) (entry : EntryPoint) :
    List Statement × List String :=
  let idg := define_id_grouping entry
  let dataGroup := name_composer (entry.path ++ [data_suffix])
  let parentId :=
    if entry.parentKeys.isEmpty then ((none : Option String), (none : Option (List Statement)))
    else
      -- `fake_entry = entry.copy(); fake_entry.own_keys = None`
      let fake := { entry.copy with ownKeys := [] }
      let r := define_id_grouping fake
      (r.1, some r.2)
  entry.operations.foldl (transformOp entry idg.1 idg.2 dataGroup parentId.1 parentId.2) acc

/-- Embedding of `RPCGenerator.transform`, up to the end of the RPC loop.
The source afterwards runs `Normalizer.external_definitions` (which only
rewrites the argument or keyword of nodes carrying a namespace prefix, a
non-built-in type name, or an extension keyword), inserts one `import`
statement per registry entry after the prefix statement, and calls
`validate(rescue=True)`; these passes create or rename no `grouping`,
`rpc`, `input`, `output` or `choice` statement, which is all the theorems
below inspect. -/
def transform (module : Statement) (name pfx ns : Option String)
    (keyword : String) : Except ScanError Statement :=
  match create_module_with_header module name pfx ns with
  | .error e => .error e
  | .ok (outName, outSub) =>
    match scan defaultScannerCfg module with
    | .error e => .error e
    | .ok entries =>
      -- `if not entries: return out`: for a top-level input `scan` returns
      -- an itertools.chain object, which is truthy even when it yields
      -- nothing, so the early return fires only for non-top-level inputs.
      if !(is_top_level module) && entries.isEmpty then
        .ok (.mk keyword outName outSub [] false)
      else
        let result := entries.foldl transformEntry (outSub, [])
        .ok (.mk keyword outName result.1 [] false)

-- Observers over the derived module

def rpcs (m : Statement) : List Statement :=
  m.substmts.filter (fun s => s.keyword == "rpc")

def rpcNames (m : Statement) : List String :=
  (rpcs m).map Statement.arg

def groupingNames (m : Statement) : List String :=
  (m.substmts.filter (fun s => s.keyword == "grouping")).map Statement.arg

def findGrouping (m : Statement) (n : String) : Option Statement :=
  (m.substmts.filter (fun s => s.keyword == "grouping" && s.arg == n)).head?

def findRpc (m : Statement) (n : String) : Option Statement :=
  (m.substmts.filter (fun s => s.keyword == "rpc" && s.arg == n)).head?

mutual
/-- Does any node of the tree carry the given keyword? -/
def hasKeyword (kw : String) : Statement → Bool
  | .mk k _ sub ch _ => k == kw || hasKeywordList kw sub || hasKeywordList kw ch

def hasKeywordList (kw : String) : List Statement → Bool
  | [] => false
  | c :: cs => hasKeyword kw c || hasKeywordList kw cs
end

-- Concrete input fixtures

def typeStmt (t : String) : Statement := .mk "type" t [] [] false
def leafStmt (n t : String) : Statement := .mk "leaf" n [typeStmt t] [] true
def nsStmt (u : String) : Statement := .mk "namespace" u [] [] false
def pfxStmt (p : String) : Statement := .mk "prefix" p [] [] false
def configFalseStmt : Statement := .mk "config" "false" [] [] false
def keyStmt (a : String) : Statement := .mk "key" a [] [] false

/-- Input `module test { namespace "urn:test"; prefix "t";
leaf host-name { type string; } }` -/
def hostModule : Statement :=
  .mk "module" "test"
    [nsStmt "urn:test", pfxStmt "t", leafStmt "host-name" "string"]
    [leafStmt "host-name" "string"] true

def companyLeaf : Statement := leafStmt "company" "string"
def loginLeaf : Statement := leafStmt "login" "string"
def nameLeaf : Statement := leafStmt "name" "string"
def surnameLeaf : Statement := leafStmt "surname" "string"

def usersList : Statement :=
  .mk "list" "users"
    [keyStmt "company login", companyLeaf, loginLeaf, nameLeaf, surnameLeaf]
    [companyLeaf, loginLeaf, nameLeaf, surnameLeaf] true

/-- Input `module test { namespace "urn:test"; prefix "t";
list users { key "company login"; leaf company; leaf login; leaf name;
leaf surname; } }` -/
def usersModule : Statement :=
  .mk "module" "test" [nsStmt "urn:test", pfxStmt "t", usersList] [usersList] true

def dateLeaf : Statement := leafStmt "date" "string"
def contentLeaf : Statement := leafStmt "content" "string"

def postsList : Statement :=
  .mk "list" "posts" [keyStmt "date", dateLeaf, contentLeaf]
    [dateLeaf, contentLeaf] true

def usersPostsList : Statement :=
  .mk "list" "users" [keyStmt "login", loginLeaf, postsList]
    [loginLeaf, postsList] true

/-- Input `module test2 { namespace "urn:test2"; prefix "t2";
list users { key "login"; leaf login; list posts { key "date"; leaf date;
leaf content; } } }` -/
def postsModule : Statement :=
  .mk "module" "test2" [nsStmt "urn:test2", pfxStmt "t2", usersPostsList]
    [usersPostsList] true

/-- Input `leaf-list usernames { type string; }`, with `config false;` when
`ro` is set. -/
def usernamesLeafList (ro : Bool) : Statement :=
  .mk "leaf-list" "usernames"
    ([typeStmt "string"] ++ if ro then [configFalseStmt] else []) [] true

/-- A module whose only top-level data node is the `usernames`
leaf-list. -/
def llModule (ro : Bool) : Statement :=
  .mk "module" "test" [nsStmt "urn:test", pfxStmt "t", usernamesLeafList ro]
    [usernamesLeafList ro] true

-- registry.py

/-- A character kept by `inflection.parameterize` (its keep-class is
`[a-zA-Z0-9\-_]`). -/
def paramOk (c : Char) : Bool :=
  c.isAlpha || c.isDigit || c == '-' || c == '_'

/-- Models `re.sub(r"(?i)[^a-z0-9\-_]+", '-', s)`: each maximal run of
disallowed characters becomes one separator; the flag records whether the
scan is inside such a run. -/
def subBadRuns (inBad : Bool) : List Char → List Char
  | [] => []
  | c :: cs =>
    if paramOk c then c :: subBadRuns false cs
    else if inBad then subBadRuns true cs
    else '-' :: subBadRuns true cs

/-- Models `re.sub(r"-{2,}", '-', s)`: collapse separator runs to one. -/
def collapseSep (prevSep : Bool) : List Char → List Char
  | [] => []
  | c :: cs =>
    if c == '-' then
      if prevSep then collapseSep true cs else '-' :: collapseSep true cs
    else c :: collapseSep false cs

/-- Models `re.sub(r"(?i)^-|-$", '', s)`: drop one leading and one trailing
separator. -/
def stripSep (l : List Char) : List Char :=
  let l1 := match l with
    | '-' :: t => t
    | _ => l
  match l1.getLast? with
  | some c => if c == '-' then l1.dropLast else l1
  | none => l1

/-- Models `inflection.parameterize(s, '-')` (external library), for
ASCII input: transliteration is the identity, disallowed character runs
become `-`, separator runs are collapsed, one leading/trailing separator
is stripped, and the result is lower-cased. -/
def parameterize (s : String) : String :=
  String.mk ((stripSep (collapseSep false (subBadRuns false s.data))).map Char.toLower)

/-- Embedding of `registry.prefixify`: drop URL scheme markers, then clean the name.
When the name still contains the URL separator `/`, the source assigns
the LIST `name.split('/')[1:]` back to `name` and then crashes with a
`TypeError` at `'' + name`; `none` models that crash. -/
def prefixify (name : String) : Option String :=
  let n := strReplace (strReplace name "http://" "") "urn:" ""
  if pyIn "/" n then none
  else some (parameterize n)

/-- Errors that `ImportRegistry.add` can raise: the `YangImportError` revision
conflict, and the `TypeError` that `prefixify` hits on names containing
`/`. -/
inductive AddErr : Type where
  | importError
  | typeError
deriving DecidableEq

/-- Embedding of `registry.ImportRegistry`: `by_prefix` and `by_name` map to
`(module_name, revision)` / `(prefix, revision)` pairs, `prefix_request`
holds the collision counters, `reserved` the reserved prefixes.  The
Python `None` revision/prefix is represented by `""` (both are only ever
tested for truthiness or compared against non-empty strings). -/
structure ImportRegistry : Type where
  byPfx : List (String × String × String) := []
  byName : List (String × String × String) := []
  pfxRequest : List (String × Nat) := []
  reserved : List String := []
deriving DecidableEq

/-- The tail of `ImportRegistry.add` that registers a module name not yet
bound to a truthy prefix: derive a prefix when the suggestion is empty,
bump the collision counter, and write the three indexes. -/
def ImportRegistry.addFresh (reg : ImportRegistry) (pfx name revision : String) :
    Except AddErr String × ImportRegistry :=
  match (if pfx = "" then prefixify name else some pfx) with
  | none => (.error .typeError, reg)
  | some pfx1 =>
    let occ := (alGet reg.pfxRequest pfx1).getD 0 + 1
    let step :=
      if occ > 1 then
        ({ reg with pfxRequest := alSet reg.pfxRequest pfx1 occ },
         pfx1 ++ toString occ)
      else (reg, pfx1)
    let reg2 := { step.1 with
                  pfxRequest := alSet step.1.pfxRequest step.2 1,
                  byPfx := alSet step.1.byPfx step.2 (name, revision),
                  byName := alSet step.1.byName name (step.2, revision) }
    (.ok step.2, reg2)

/-- Embedding of `ImportRegistry.add`.  The returned registry is the object's state
when the call returns or raises; every raise in the source happens before
any mutation, so the error cases return the input state. -/
def ImportRegistry.add (reg : ImportRegistry) (pfx name revision : String) :
    Except AddErr String × ImportRegistry :=
  let somePair := match alGet reg.byName name with
    | some pr => pr
    | none => ("", "")
  if somePair.2 ≠ "" && somePair.2 ≠ revision then (.error .importError, reg)
  else if somePair.1 ≠ "" then (.ok somePair.1, reg)
  else reg.addFresh pfx name revision

/-- Embedding of `ImportRegistry.reserve_prefix`. -/
def ImportRegistry.reserve (reg : ImportRegistry) (pfxs : List String) :
    ImportRegistry :=
  pfxs.foldl
    (fun r p =>
      { r with reserved := r.reserved ++ [p], pfxRequest := alSet r.pfxRequest p 1 })
    reg

/-- A sequence of later `add` calls, each threading the registry state of
the previous one. -/
def addMany (reg : ImportRegistry) : List (String × String × String) → ImportRegistry
  | [] => reg
  | (p, n, r) :: t => addMany (reg.add p n r).2 t


-- Claim theorems

/-- A leaf whose `config` substatement is not exactly `"false"` but
contains it as a substring. -/
def oddConfigLeaf : Statement :=
  .mk "leaf" "state" [.mk "config" "false-like" [] [] false] [] true

/-- C9 (counterexample): the claim says `is_read_only` is true iff a
`config` substatement has the value exactly `"false"`; on this node no
`config` substatement equals `"false"`, yet `is_read_only` is true,
because the source performs a substring test. -/
theorem c9_counterexample_substring_config :
    is_read_only oddConfigLeaf = true ∧
    (findStmts oddConfigLeaf "config" none).all (fun c => !(c.arg == "false")) = true :=
  ⟨rfl, rfl⟩

/-- C9 (amended): `is_read_only` returns true iff the node's first
`config` substatement exists and its value contains `"false"` as a
substring. -/
theorem c9_amended_read_only_iff (s : Statement) :
    is_read_only s = true ↔
      ∃ c, searchOne s "config" = some c ∧ pyIn "false" c.arg = true := by
  unfold is_read_only
  cases h : searchOne s "config" with
  | none => simp
  | some c => simp

/-- Witness for C9's amended theorem at a concrete node. -/
theorem c9_amended_witness :
    is_read_only oddConfigLeaf = true ↔
      ∃ c, searchOne oddConfigLeaf "config" = some c ∧ pyIn "false" c.arg = true :=
  c9_amended_read_only_iff oddConfigLeaf

/-- C1: on the failing input (a module with a single string leaf
`host-name`) the derived module has the expected RPCs but none of their
outputs is a success/failure choice: no `choice` node exists anywhere in
the derived tree, no grouping named by `failure_name` is emitted, and
`get-host-name`'s output is a plain `uses` of the `host-name-response`
grouping.  The source computes the failure/success templates but the
call to `_create_response_choice` is commented out
(generators.py line 582), contradicting the `RPCGenerator` docstring's
`error || data` response table. -/
theorem c1_no_response_choice_emitted :
    (transform hostModule none none none "module").map rpcNames
        = .ok ["get-host-name", "set-host-name"] ∧
    (transform hostModule none none none "module").map (hasKeyword "choice") = .ok false ∧
    (transform hostModule none none none "module").map
        (fun m => (groupingNames m).contains failure_name) = .ok false ∧
    (transform hostModule none none none "module").map
        (fun m => (findRpc m "get-host-name").map
          (fun r => r.substmts.map (fun s => (s.keyword, s.substmts.map Statement.arg))))
        = .ok (some [("output", ["host-name-response"])]) :=
  ⟨rfl, rfl, rfl, rfl⟩

/-- C2 (counterexample): for the claimed input module the scanner
does NOT produce entries for the key leaves `company` and `login`, and no
entry carries the claimed path `["users", "user", "name"]`: the only
entries target `name` and `surname`, under path `["user", <field>]`
(the plural list segment is replaced by the singular item name, and key
leaves are skipped). -/
theorem c2_counterexample_entry_paths :
    (scan defaultScannerCfg usersModule).map (fun es => es.map EntryPoint.path)
        = .ok [["user", "name"], ["user", "surname"]] ∧
    (scan defaultScannerCfg usersModule).map
        (fun es => es.all (fun e => !(e.path == ["users", "user", "name"]))) = .ok true ∧
    (scan defaultScannerCfg usersModule).map
        (fun es => es.all (fun e => !(e.path.getLastD "" == "company"))) = .ok true :=
  ⟨rfl, rfl, rfl⟩

/-- C2 (amended): for the input
`list users { key "company login"; leaf company; leaf login; leaf name;
leaf surname; }` with no modifier, the scanner produces entries exactly
for the non-key leaves `name` and `surname`, each with path
`["user", <field>]` and `parent_keys["user"]` equal to the ordered key
nodes `[company, login]`; the generated RPC `get-user-name` takes its
input from the grouping `user-identification`, which contains both a
leaf `company` and a leaf `login`. -/
theorem c2_amended_users_scenario :
    (scan defaultScannerCfg usersModule).map
        (fun es => es.map (fun e => (e.path, e.parentKeys)))
        = .ok [(["user", "name"], [("user", [companyLeaf, loginLeaf])]),
               (["user", "surname"], [("user", [companyLeaf, loginLeaf])])] ∧
    (transform usersModule none none none "module").map
        (fun m => (findRpc m "get-user-name").map
          (fun r => r.substmts.map (fun s => (s.keyword, s.substmts.map Statement.arg))))
        = .ok (some [("input", ["user-identification"]), ("output", ["user-name-response"])]) ∧
    (transform usersModule none none none "module").map
        (fun m => (findGrouping m "user-identification").map
          (fun g => ((g.substmts.map Statement.arg).contains "company",
                     (g.substmts.map Statement.arg).contains "login")))
        = .ok (some (true, true)) :=
  ⟨rfl, rfl, rfl⟩

/-- C3: on the failing input (nested keyed lists
`users { key login; ... posts { key date; leaf content; } }`) the
identification grouping computed for the `content` entry is named
`user-post-identification` but its key leaves all keep their original
names: no leaf is renamed to `user-login`, because `_prefix_keys` builds
the renamed copy and then appends the ORIGINAL key
(generators.py line 203), contradicting `_define_id_grouping`'s own
docstring («the last key should not be prefixed, but the predecessors
should»). -/
theorem c3_predecessor_keys_keep_original_names :
    (prefix_keys [loginLeaf] "user").map Statement.arg = ["login"] ∧
    (scan defaultScannerCfg postsModule).map
        (fun es => es.map (fun e =>
          ((define_id_grouping e).1,
           ((define_id_grouping e).2.map Statement.arg).contains "user-login",
           ((define_id_grouping e).2.map Statement.arg).contains "login")))
        = .ok [(some "user-post-identification", false, true)] :=
  ⟨rfl, rfl⟩

/-- C4 (counterexample): for a `config false` leaf-list the claim
asserts `set-<singular>` is still generated (only add/remove being
skipped), but the code truncates a read-only entry to READ only: the
derived module for `leaf-list usernames { type string; config false; }`
has exactly one RPC, `get-username`, and no `set-username`. -/
theorem c4_counterexample_config_false_leaf_list :
    (transform (llModule true) none none none "module").map rpcNames
        = .ok ["get-username"] ∧
    (transform (llModule true) none none none "module").map
        (fun m => (rpcNames m).contains "set-username") = .ok false :=
  ⟨rfl, rfl⟩

/-- C4 (amended): for a module whose only top-level data node is a
leaf-list with no modifier, the derived module contains the RPCs
`get-`, `set-`, `add-` and `remove-<singular>` named after the
singularized list name; when the leaf-list has `config false` only
`get-<singular>` is generated; in both cases no RPC name mentions the
list's plural form. -/
theorem c4_amended_leaf_list_rpcs :
    (transform (llModule false) none none none "module").map rpcNames
        = .ok ["get-username", "set-username", "add-username", "remove-username"] ∧
    (transform (llModule true) none none none "module").map rpcNames
        = .ok ["get-username"] ∧
    (transform (llModule false) none none none "module").map
        (fun m => (rpcNames m).all (fun n => !(pyIn "usernames" n))) = .ok true ∧
    (transform (llModule true) none none none "module").map
        (fun m => (rpcNames m).all (fun n => !(pyIn "usernames" n))) = .ok true :=
  ⟨rfl, rfl, rfl, rfl⟩

-- Association-list lemmas

theorem alGet_alSet_same {α : Type} (l : List (String × α)) (k : String) (v : α) :
    alGet (alSet l k v) k = some v := by
  induction l with
  | nil => simp [alSet, alGet]
  | cons p t ih =>
    obtain ⟨pk, pv⟩ := p
    by_cases h : pk = k
    · simp [alSet, h, alGet]
    · simp [alSet, h, alGet, ih]

theorem alGet_alSet_ne {α : Type} (l : List (String × α)) (k k' : String) (v : α)
    (h : k ≠ k') : alGet (alSet l k v) k' = alGet l k' := by
  induction l with
  | nil => simp [alSet, alGet, h]
  | cons p t ih =>
    obtain ⟨pk, pv⟩ := p
    by_cases hp : pk = k
    · subst hp
      simp [alSet, alGet, h]
    · simp [alSet, hp, alGet, ih]


-- Registry lemmas

theorem addFresh_byName_self (reg : ImportRegistry) (p n rev q : String)
    (reg1 : ImportRegistry) (h : reg.addFresh p n rev = (.ok q, reg1)) :
    alGet reg1.byName n = some (q, rev) := by
  unfold ImportRegistry.addFresh at h
  cases hp : (if p = "" then prefixify n else some p) with
  | none =>
    rw [hp] at h
    cases h
  | some pfx1 =>
    rw [hp] at h
    simp only [Prod.mk.injEq, Except.ok.injEq] at h
    obtain ⟨h1, h2⟩ := h
    subst h1
    subst h2
    exact alGet_alSet_same ..

theorem addFresh_byName_other (reg : ImportRegistry) (p n rev name : String)
    (hn : n ≠ name) :
    alGet ((reg.addFresh p n rev).2).byName name = alGet reg.byName name := by
  unfold ImportRegistry.addFresh
  cases hp : (if p = "" then prefixify n else some p) with
  | none => rfl
  | some pfx1 =>
    simp only
    rw [alGet_alSet_ne _ _ _ _ hn]
    split <;> rfl

theorem addFresh_error (reg : ImportRegistry) (p n rev : String) (e : AddErr)
    (h : (reg.addFresh p n rev).1 = .error e) :
    (reg.addFresh p n rev).2 = reg := by
  unfold ImportRegistry.addFresh at h ⊢
  cases hp : (if p = "" then prefixify n else some p) with
  | none => rfl
  | some pfx1 =>
    rw [hp] at h
    simp at h

theorem addFresh_fst_not_import (reg : ImportRegistry) (p n rev : String) :
    (reg.addFresh p n rev).1 ≠ .error .importError := by
  unfold ImportRegistry.addFresh
  cases hp : (if p = "" then prefixify n else some p) with
  | none => simp
  | some pfx1 => simp

theorem add_success_lookup (reg : ImportRegistry) (p1 name rev q : String)
    (reg1 : ImportRegistry) (h : reg.add p1 name rev = (.ok q, reg1)) :
    ∃ r, alGet reg1.byName name = some (q, r) := by
  unfold ImportRegistry.add at h
  cases halt : alGet reg.byName name with
  | none =>
    simp only [halt] at h
    simp at h
    exact ⟨rev, addFresh_byName_self reg p1 name rev q reg1 h⟩
  | some pr =>
    obtain ⟨q0, r0⟩ := pr
    simp only [halt] at h
    by_cases h1 : r0 = "" <;> by_cases h2 : r0 = rev <;>
      simp [h1, h2] at h <;>
      by_cases hq0 : q0 = ""
    · subst hq0
      simp at h
      exact ⟨rev, addFresh_byName_self _ _ _ _ _ _ h⟩
    · rw [if_neg hq0] at h
      obtain ⟨hh1, hh2⟩ := Prod.mk.injEq .. ▸ h
      cases hh1
      subst hh2
      exact ⟨r0, h1 ▸ halt⟩
    · subst hq0
      simp at h
      exact ⟨rev, addFresh_byName_self _ _ _ _ _ _ h⟩
    · rw [if_neg hq0] at h
      obtain ⟨hh1, hh2⟩ := Prod.mk.injEq .. ▸ h
      cases hh1
      subst hh2
      exact ⟨r0, halt⟩
    · subst hq0
      simp at h
      exact ⟨rev, addFresh_byName_self _ _ _ _ _ _ h⟩
    · rw [if_neg hq0] at h
      obtain ⟨hh1, hh2⟩ := Prod.mk.injEq .. ▸ h
      cases hh1
      subst hh2
      exact ⟨r0, halt⟩

theorem add_preserves_byName (reg : ImportRegistry) (p' n' r' name q r : String)
    (h : alGet reg.byName name = some (q, r)) (hq : q ≠ "") :
    alGet ((reg.add p' n' r').2).byName name = some (q, r) := by
  unfold ImportRegistry.add
  by_cases hn : n' = name
  · subst hn
    simp only [h]
    split
    · exact h
    · exact h
  · cases halt : alGet reg.byName n' with
    | none =>
      simp only [halt]
      split
      · exact h
      · split
        · exact h
        · rw [addFresh_byName_other _ _ _ _ _ hn]
          exact h
    | some pr =>
      obtain ⟨q0, r0⟩ := pr
      simp only [halt]
      split
      · exact h
      · split
        · exact h
        · rw [addFresh_byName_other _ _ _ _ _ hn]
          exact h

theorem addMany_preserves_byName (calls : List (String × String × String))
    (reg : ImportRegistry) (name q r : String)
    (h : alGet reg.byName name = some (q, r)) (hq : q ≠ "") :
    alGet ((addMany reg calls).byName) name = some (q, r) := by
  induction calls generalizing reg with
  | nil => exact h
  | cons c t ih =>
    obtain ⟨p', n', r'⟩ := c
    exact ih _ (add_preserves_byName reg p' n' r' name q r h hq)

theorem add_returns_stored (reg : ImportRegistry) (p2 name rev' q r : String)
    (h : alGet reg.byName name = some (q, r)) (hq : q ≠ "")
    (hc : ¬(r ≠ "" ∧ r ≠ rev')) :
    (reg.add p2 name rev').1 = .ok q := by
  unfold ImportRegistry.add
  simp only [h]
  by_cases h1 : r = "" <;> by_cases h2 : r = rev' <;> simp [h1, h2, hq] <;>
    exact absurd ⟨h1, h2⟩ hc

/-- C7 (counterexample): registering `m` with revision `"r1"` and
then requesting `m` with the EMPTY revision raises the import-conflict
error, although the two requested revisions are not both non-empty (the
second is empty): the source only requires the stored revision to be
truthy and different, so the claimed "if and only if" fails. -/
theorem c7_counterexample_error_with_empty_revision :
    (ImportRegistry.add {} "p" "m" "r1").1 = .ok "p" ∧
    ((ImportRegistry.add {} "p" "m" "r1").2.add "p2" "m" "").1
        = .error .importError ∧
    ¬(("" : String) ≠ "") :=
  ⟨rfl, rfl, by decide⟩

/-- C7 (amended): `ImportRegistry.add` raises the import-conflict
error iff the module name is already registered with a NON-EMPTY revision
different from the requested one (the requested revision may be empty);
on any error the registry state is unchanged. -/
theorem c7_amended_import_conflict_iff (reg : ImportRegistry) (pfx name rev : String) :
    ((reg.add pfx name rev).1 = .error .importError ↔
      ∃ q r, alGet reg.byName name = some (q, r) ∧ r ≠ "" ∧ r ≠ rev) ∧
    (∀ e, (reg.add pfx name rev).1 = .error e → (reg.add pfx name rev).2 = reg) := by
  have haf : ∀ e, (reg.addFresh pfx name rev).1 = .error e →
      (reg.addFresh pfx name rev).2 = reg := fun e => addFresh_error reg pfx name rev e
  unfold ImportRegistry.add
  cases halt : alGet reg.byName name with
  | none =>
    simp only [halt]
    rw [if_neg (by simp)]
    split
    · rename_i hcond2
      exact absurd hcond2 (by simp)
    · constructor
      · constructor
        · intro hc
          exact absurd hc (addFresh_fst_not_import reg pfx name rev)
        · rintro ⟨q, r, hqr, -, -⟩
          cases hqr
      · exact haf
  | some pr =>
    obtain ⟨q0, r0⟩ := pr
    simp only [halt]
    by_cases h1 : r0 = ""
    · subst h1
      rw [if_neg (by simp)]
      split
      · constructor
        · constructor
          · intro hc
            simp at hc
          · rintro ⟨q, r, hqr, hr1, -⟩
            simp only [Option.some.injEq, Prod.mk.injEq] at hqr
            exact absurd hqr.2.symm hr1
        · intro e he
          simp at he
      · constructor
        · constructor
          · intro hc
            exact absurd hc (addFresh_fst_not_import reg pfx name rev)
          · rintro ⟨q, r, hqr, hr1, -⟩
            simp only [Option.some.injEq, Prod.mk.injEq] at hqr
            exact absurd hqr.2.symm hr1
        · exact haf
    · by_cases h2 : r0 = rev
      · subst h2
        rw [if_neg (by simp)]
        split
        · constructor
          · constructor
            · intro hc
              simp at hc
            · rintro ⟨q, r, hqr, -, hr2⟩
              simp only [Option.some.injEq, Prod.mk.injEq] at hqr
              exact absurd hqr.2.symm hr2
          · intro e he
            simp at he
        · constructor
          · constructor
            · intro hc
              exact absurd hc (addFresh_fst_not_import reg pfx name r0)
            · rintro ⟨q, r, hqr, -, hr2⟩
              simp only [Option.some.injEq, Prod.mk.injEq] at hqr
              exact absurd hqr.2.symm hr2
          · exact haf
      · rw [if_pos (by simp [h1, h2])]
        constructor
        · constructor
          · intro _
            exact ⟨q0, r0, rfl, h1, h2⟩
          · intro _
            rfl
        · intro e _
          rfl

/-- Witness for C7's amended theorem at a concrete registry. -/
theorem c7_amended_witness :
    (((ImportRegistry.add {} "p" "m" "r1").2.add "p2" "m" "").1 = .error .importError ↔
      ∃ q r, alGet ((ImportRegistry.add {} "p" "m" "r1").2).byName "m" = some (q, r) ∧
        r ≠ "" ∧ r ≠ "") ∧
    (∀ e, ((ImportRegistry.add {} "p" "m" "r1").2.add "p2" "m" "").1 = .error e →
      ((ImportRegistry.add {} "p" "m" "r1").2.add "p2" "m" "").2
          = (ImportRegistry.add {} "p" "m" "r1").2) :=
  c7_amended_import_conflict_iff ((ImportRegistry.add {} "p" "m" "r1").2) "p2" "m" ""

/-- C8 (counterexample): a first successful `add` can return the
EMPTY prefix (suggested prefix empty and `prefixify("!!!") = ""`); a
later call for the same module name with a non-conflicting revision then
returns a different prefix (`"abc"`), refuting per-name idempotence as
claimed. -/
theorem c8_counterexample_empty_assigned_prefix :
    (ImportRegistry.add {} "" "!!!" "r").1 = .ok "" ∧
    ((ImportRegistry.add {} "" "!!!" "r").2.add "abc" "!!!" "r").1 = .ok "abc" ∧
    ¬(("abc" : String) = "") :=
  ⟨rfl, rfl, by decide⟩

/-- C8 (amended): if a first successful `add` returns a NON-EMPTY
prefix `q` for a module name, then after any sequence of later `add`
calls, every call for that name with a non-conflicting revision returns
the same `q`. -/
theorem c8_amended_idempotent_nonempty (reg reg1 : ImportRegistry)
    (p1 name rev q : String)
    (h : reg.add p1 name rev = (.ok q, reg1)) (hq : q ≠ "") :
    ∃ r, alGet reg1.byName name = some (q, r) ∧
      ∀ (calls : List (String × String × String)) (p2 rev' : String),
        ¬(r ≠ "" ∧ r ≠ rev') → ((addMany reg1 calls).add p2 name rev').1 = .ok q := by
  obtain ⟨r, hr⟩ := add_success_lookup reg p1 name rev q reg1 h
  exact ⟨r, hr, fun calls p2 rev' hc =>
    add_returns_stored _ p2 name rev' q r
      (addMany_preserves_byName calls reg1 name q r hr hq) hq hc⟩

/-- Witness for C8's amended theorem at a concrete registry. -/
theorem c8_amended_witness :
    ∃ r, alGet ((ImportRegistry.add {} "p" "m" "r0").2).byName "m" = some ("p", r) ∧
      ∀ (calls : List (String × String × String)) (p2 rev' : String),
        ¬(r ≠ "" ∧ r ≠ rev') →
          ((addMany (ImportRegistry.add {} "p" "m" "r0").2 calls).add p2 "m" rev').1
            = .ok "p" :=
  c8_amended_idempotent_nonempty {} ((ImportRegistry.add {} "p" "m" "r0").2)
    "p" "m" "r0" "p" rfl (by decide)

/-- C5: for a statement of kind module/submodule the scanner first
requires the validated marker (`ensure_validated`), failing with the
validation-required error and producing no entry points otherwise; for a
validated root it scans each resolved child in order and concatenates the
per-child results. -/
theorem c5_top_level_requires_validation (cfg : ScannerCfg) (s : Statement)
    (htop : is_top_level s = true) :
    (s.iIsValidated = false → scan cfg s = .error .notValidated) ∧
    (s.iIsValidated = true →
      scan cfg s = (scanChildren cfg s.iChildren).map List.flatten) := by
  obtain ⟨k, a, sub, ch, v⟩ := s
  simp only [Statement.iIsValidated, Statement.iChildren]
  constructor
  · intro hv
    subst hv
    rw [scan]
    simp [htop, ensure_validated, Statement.iIsValidated]
  · intro hv
    subst hv
    rw [scan]
    cases hsc : scanChildren cfg ch with
    | error e => simp [htop, ensure_validated, Statement.iIsValidated, hsc, Except.map]
    | ok rs => simp [htop, ensure_validated, Statement.iIsValidated, hsc, Except.map]

/-- An unvalidated module root. -/
def unvalidatedModule : Statement := .mk "module" "bad" [] [] false

/-- Witness for C5 at concrete modules: an unvalidated root fails, a
validated root concatenates its children's scans. -/
theorem c5_witness :
    (scan defaultScannerCfg unvalidatedModule = .error .notValidated) ∧
    (scan defaultScannerCfg hostModule
        = (scanChildren defaultScannerCfg hostModule.iChildren).map List.flatten) :=
  ⟨(c5_top_level_requires_validation defaultScannerCfg unvalidatedModule rfl).1 rfl,
   (c5_top_level_requires_validation defaultScannerCfg hostModule rfl).2 rfl⟩

-- Operation-list invariant of the scanner

/-- Shape invariant of every produced entry's operations: one of the three
constant lists of `scan.py`, with the four-operation list only on entries
that carry their own keys. -/
def OpsInv (e : EntryPoint) : Prop :=
  (e.operations = READ_ONLY_OPS ∨ e.operations = DEFAULT_OPS ∨
    e.operations = DEFAULT_ITEM_OPS) ∧
  (e.operations = DEFAULT_ITEM_OPS → e.ownKeys ≠ [])

theorem defaultEntry_inv (s : Statement) (ro : Bool) : OpsInv (defaultEntry s ro) := by
  cases ro <;> simp [OpsInv, defaultEntry] <;> decide

theorem scan_list_inv (cfg : ScannerCfg) (s : Statement) (ro : Bool)
    (kp : KeysOrPrune) (le : List EntryPoint) (ap : List String)
    (h : scan_list cfg s ro = .ok (kp, le, ap)) : ∀ e ∈ le, OpsInv e := by
  unfold scan_list at h
  cases hk : find_keys s with
  | error err =>
    rw [hk] at h
    cases h
  | ok keyNodes =>
    rw [hk] at h
    intro e he
    cases hai : is_atomic_item s with
    | true =>
      rw [hai] at h
      simp at h
      obtain ⟨h1, h2, h3⟩ := h
      subst h2
      simp only [List.mem_singleton] at he
      subst he
      refine ⟨?_, ?_⟩
      · cases ro
        · right
          right
          rfl
        · left
          rfl
      · cases ro
        · intro hx
          cases keyNodes with
          | none => simp
          | some l => cases l <;> simp
        · intro hx
          exact absurd (show READ_ONLY_OPS = DEFAULT_ITEM_OPS from hx) (by decide)
    | false =>
      rw [hai] at h
      cases hii : is_included_item s with
      | true =>
        rw [hii] at h
        simp at h
        obtain ⟨h1, h2, h3⟩ := h
        subst h2
        simp only [List.mem_singleton] at he
        subst he
        refine ⟨?_, ?_⟩
        · cases ro
          · right
            right
            rfl
          · left
            rfl
        · cases ro
          · intro hx
            cases keyNodes with
            | none => simp
            | some l => cases l <;> simp
          · intro hx
            exact absurd (show READ_ONLY_OPS = DEFAULT_ITEM_OPS from hx) (by decide)
      | false =>
        rw [hii] at h
        simp at h
        obtain ⟨h1, h2, h3⟩ := h
        subst h2
        simp at he

theorem processChild_inv (ro : Bool) (ks : Option (List Statement))
    (ap : List String) (e e' : EntryPoint) (hinv : OpsInv e)
    (h : processChild ro ks ap e = some e') : OpsInv e' := by
  have htrT : OpsInv { e with operations := READ_ONLY_OPS } := by
    refine ⟨Or.inl rfl, fun hx => ?_⟩
    exact absurd (show READ_ONLY_OPS = DEFAULT_ITEM_OPS from hx) (by decide)
  cases ro
  · cases ks with
    | none =>
      simp only [processChild, Bool.false_eq_true, if_false, Option.some.injEq] at h
      subst h
      exact ⟨hinv.1, hinv.2⟩
    | some l =>
      cases l with
      | nil =>
        simp only [processChild, Bool.false_eq_true, if_false, Option.some.injEq] at h
        subst h
        exact ⟨hinv.1, hinv.2⟩
      | cons k t =>
        simp only [processChild, Bool.false_eq_true, if_false] at h
        split at h
        · cases h
        · simp only [Option.some.injEq] at h
          subst h
          exact ⟨hinv.1, hinv.2⟩
  · cases ks with
    | none =>
      simp only [processChild, if_true, Option.some.injEq] at h
      subst h
      exact ⟨htrT.1, htrT.2⟩
    | some l =>
      cases l with
      | nil =>
        simp only [processChild, if_true, Option.some.injEq] at h
        subst h
        exact ⟨htrT.1, htrT.2⟩
      | cons k t =>
        simp only [processChild, if_true] at h
        split at h
        · cases h
        · simp only [Option.some.injEq] at h
          subst h
          exact ⟨htrT.1, htrT.2⟩

theorem includeEntries_inv (s : Statement) : ∀ e ∈ includeEntries s, OpsInv e := by
  intro e he
  unfold includeEntries at he
  split at he
  · simp only [List.mem_singleton] at he
    subst he
    exact defaultEntry_inv _ _
  · simp at he

mutual
/-- Every entry produced by `scan` satisfies the operations-shape
invariant. -/
theorem scan_inv (cfg : ScannerCfg) (s : Statement) :
    ∀ es, scan cfg s = .ok es → ∀ e ∈ es, OpsInv e := by
  match s with
  | .mk k a sub ch v =>
    intro es h e he
    rw [scan] at h
    split at h
    · -- module/submodule root
      revert h
      cases hev : ensure_validated (Statement.mk k a sub ch v) with
      | error err =>
        intro h
        cases h
      | ok u =>
        cases hsc : scanChildren cfg ch with
        | error err =>
          intro h
          cases h
        | ok rs =>
          intro h
          cases h
          simp only [List.mem_flatten] at he
          obtain ⟨r, hr, her⟩ := he
          exact scanChildren_inv cfg ch rs hsc r hr e her
    · split at h
      · -- non-data node
        cases h
        simp at he
      · split at h
        · -- atomic data node
          cases h
          simp only [List.mem_singleton] at he
          subst he
          exact defaultEntry_inv _ _
        · -- remaining data node: list handling then child traversal
          split at h
          · cases h
          · -- prune
            rename_i le ap2 heq
            cases h
            rcases List.mem_append.mp he with hin | hin
            · exact includeEntries_inv _ e hin
            · revert heq
              split
              · intro heq
                revert heq
                cases hsl : scan_list cfg (Statement.mk k a sub ch v)
                    (is_read_only (Statement.mk k a sub ch v)) with
                | error err =>
                  intro heq
                  cases heq
                | ok res =>
                  intro heq
                  simp only [Except.map, Except.ok.injEq, Option.some.injEq] at heq
                  exact scan_list_inv _ _ _ _ _ _ (heq ▸ hsl) e hin
              · intro heq
                cases heq
          · -- keys: children traversed
            rename_i ks le ap2 heq
            revert h
            cases hsc : scanChildren cfg ch with
            | error err =>
              intro h
              cases h
            | ok rs =>
              intro h
              cases h
              rcases List.mem_append.mp he with hin | hin
              · rcases List.mem_append.mp hin with hin2 | hin2
                · exact includeEntries_inv _ e hin2
                · revert heq
                  split
                  · intro heq
                    revert heq
                    cases hsl : scan_list cfg (Statement.mk k a sub ch v)
                        (is_read_only (Statement.mk k a sub ch v)) with
                    | error err =>
                      intro heq
                      cases heq
                    | ok res =>
                      intro heq
                      simp only [Except.map, Except.ok.injEq, Option.some.injEq] at heq
                      exact scan_list_inv _ _ _ _ _ _ (heq ▸ hsl) e hin2
                  · intro heq
                    cases heq
              · obtain ⟨e0, he0, hpc⟩ := List.mem_filterMap.mp hin
                simp only [List.mem_flatten] at he0
                obtain ⟨r, hr, her⟩ := he0
                exact processChild_inv _ _ _ _ _
                  (scanChildren_inv cfg ch rs hsc r hr e0 her) hpc
          · -- non-list data node: children traversed
            rename_i heq
            revert h
            cases hsc : scanChildren cfg ch with
            | error err =>
              intro h
              cases h
            | ok rs =>
              intro h
              cases h
              rcases List.mem_append.mp he with hin | hin
              · exact includeEntries_inv _ e hin
              · obtain ⟨e0, he0, hpc⟩ := List.mem_filterMap.mp hin
                simp only [List.mem_flatten] at he0
                obtain ⟨r, hr, her⟩ := he0
                exact processChild_inv _ _ _ _ _
                  (scanChildren_inv cfg ch rs hsc r hr e0 her) hpc

theorem scanChildren_inv (cfg : ScannerCfg) (l : List Statement) :
    ∀ rs, scanChildren cfg l = .ok rs → ∀ r ∈ rs, ∀ e ∈ r, OpsInv e := by
  match l with
  | [] =>
    intro rs h r hr
    rw [scanChildren] at h
    cases h
    simp at hr
  | c :: cs =>
    intro rs h r hr e he
    rw [scanChildren] at h
    revert h
    cases h1 : scan cfg c with
    | error err =>
      intro h
      cases h
    | ok r0 =>
      cases h2 : scanChildren cfg cs with
      | error err =>
        intro h
        cases h
      | ok rs0 =>
        intro h
        cases h
        rcases List.mem_cons.mp hr with hr1 | hr2
        · subst hr1
          exact scan_inv cfg c _ h1 e he
        · exact scanChildren_inv cfg cs rs0 h2 r hr2 e he
end

theorem is_data_not_top (s : Statement) (hd : is_data s = true) :
    is_top_level s = false := by
  unfold is_top_level
  by_cases hm : s.keyword = "module"
  · unfold is_data at hd
    rw [hm] at hd
    exact absurd hd (by decide)
  · by_cases hsm : s.keyword = "submodule"
    · unfold is_data at hd
      rw [hsm] at hd
      exact absurd hd (by decide)
    · simp [hm, hsm]

theorem scan_list_readonly (cfg : ScannerCfg) (s : Statement)
    (kp : KeysOrPrune) (le : List EntryPoint) (ap : List String)
    (h : scan_list cfg s true = .ok (kp, le, ap)) :
    ∀ e ∈ le, e.operations = READ_ONLY_OPS := by
  unfold scan_list at h
  cases hk : find_keys s with
  | error err =>
    rw [hk] at h
    cases h
  | ok keyNodes =>
    rw [hk] at h
    intro e he
    cases hai : is_atomic_item s with
    | true =>
      rw [hai] at h
      simp at h
      obtain ⟨h1, h2, h3⟩ := h
      subst h2
      simp only [List.mem_singleton] at he
      subst he
      rfl
    | false =>
      rw [hai] at h
      cases hii : is_included_item s with
      | true =>
        rw [hii] at h
        simp at h
        obtain ⟨h1, h2, h3⟩ := h
        subst h2
        simp only [List.mem_singleton] at he
        subst he
        rfl
      | false =>
        rw [hii] at h
        simp at h
        obtain ⟨h1, h2, h3⟩ := h
        subst h2
        simp at he

theorem processChild_readonly (ks : Option (List Statement)) (ap : List String)
    (e e' : EntryPoint) (h : processChild true ks ap e = some e') :
    e'.operations = READ_ONLY_OPS := by
  cases ks with
  | none =>
    simp only [processChild, if_true, Option.some.injEq] at h
    subst h
    rfl
  | some l =>
    cases l with
    | nil =>
      simp only [processChild, if_true, Option.some.injEq] at h
      subst h
      rfl
    | cons k t =>
      simp only [processChild, if_true] at h
      split at h
      · cases h
      · simp only [Option.some.injEq] at h
        subst h
        rfl

theorem includeEntries_readonly (s : Statement) (hro : is_read_only s = true) :
    ∀ e ∈ includeEntries s, e.operations = READ_ONLY_OPS := by
  intro e he
  unfold includeEntries at he
  split at he
  · simp only [List.mem_singleton] at he
    subst he
    simp [EntryPoint.copy, defaultEntry, hro]
  · simp at he

/-- For a read-only data node every produced entry is truncated to the
single READ operation. -/
theorem scan_readonly (cfg : ScannerCfg) (s : Statement) (es : List EntryPoint)
    (hd : is_data s = true) (hro : is_read_only s = true)
    (h : scan cfg s = .ok es) : ∀ e ∈ es, e.operations = READ_ONLY_OPS := by
  match s with
  | .mk k a sub ch v =>
    intro e he
    rw [scan] at h
    split at h
    · rename_i htop
      rw [is_data_not_top _ hd] at htop
      cases htop
    · split at h
      · rename_i hnd
        rw [hd] at hnd
        simp at hnd
      · split at h
        · -- atomic
          cases h
          simp only [List.mem_singleton] at he
          subst he
          simp [defaultEntry, hro]
        · split at h
          · cases h
          · -- prune
            rename_i le ap2 heq
            cases h
            rcases List.mem_append.mp he with hin | hin
            · exact includeEntries_readonly _ hro e hin
            · revert heq
              split
              · intro heq
                revert heq
                rw [hro]
                cases hsl : scan_list cfg (Statement.mk k a sub ch v) true with
                | error err =>
                  intro heq
                  cases heq
                | ok res =>
                  intro heq
                  simp only [Except.map, Except.ok.injEq, Option.some.injEq] at heq
                  exact scan_list_readonly _ _ _ _ _ (heq ▸ hsl) e hin
              · intro heq
                cases heq
          · -- keys
            rename_i ks le ap2 heq
            revert h
            cases hsc : scanChildren cfg ch with
            | error err =>
              intro h
              cases h
            | ok rs =>
              intro h
              cases h
              rcases List.mem_append.mp he with hin | hin
              · rcases List.mem_append.mp hin with hin2 | hin2
                · exact includeEntries_readonly _ hro e hin2
                · revert heq
                  split
                  · intro heq
                    revert heq
                    rw [hro]
                    cases hsl : scan_list cfg (Statement.mk k a sub ch v) true with
                    | error err =>
                      intro heq
                      cases heq
                    | ok res =>
                      intro heq
                      simp only [Except.map, Except.ok.injEq, Option.some.injEq] at heq
                      exact scan_list_readonly _ _ _ _ _ (heq ▸ hsl) e hin2
                  · intro heq
                    cases heq
              · obtain ⟨e0, he0, hpc⟩ := List.mem_filterMap.mp hin
                rw [hro] at hpc
                exact processChild_readonly _ _ _ _ hpc
          · -- non-list
            rename_i heq
            revert h
            cases hsc : scanChildren cfg ch with
            | error err =>
              intro h
              cases h
            | ok rs =>
              intro h
              cases h
              rcases List.mem_append.mp he with hin | hin
              · exact includeEntries_readonly _ hro e hin
              · obtain ⟨e0, he0, hpc⟩ := List.mem_filterMap.mp hin
                rw [hro] at hpc
                exact processChild_readonly _ _ _ _ hpc

/-- C6: every entry point produced by `Scanner.scan` (the read-only
truncation of children of read-only ancestors included) has a non-empty
operations list whose first element is READ and which is an ordered
subset (sublist) of `[READ, CHANGE, ITEM_ADD, ITEM_REMOVE]`; CHANGE is
present unless the entry was marked read-only (an entry missing CHANGE
is exactly `[READ]`, and a read-only data root yields only `[READ]`
entries — second conjunct); ITEM_ADD/ITEM_REMOVE occur only on
list-item entries (non-empty `own_keys`) that are not read-only (they
retain CHANGE). -/
theorem c6_operations_invariant (cfg : ScannerCfg) (s : Statement)
    (es : List EntryPoint) (h : scan cfg s = .ok es) :
    (∀ e ∈ es,
      e.operations ≠ [] ∧
      e.operations.head? = some READ_OP ∧
      e.operations.Sublist [READ_OP, CHANGE_OP, ITEM_ADD_OP, ITEM_REMOVE_OP] ∧
      (e.operations ≠ [READ_OP] → CHANGE_OP ∈ e.operations) ∧
      ((ITEM_ADD_OP ∈ e.operations ∨ ITEM_REMOVE_OP ∈ e.operations) →
        e.ownKeys ≠ [] ∧ CHANGE_OP ∈ e.operations)) ∧
    (is_data s = true → is_read_only s = true →
      ∀ e ∈ es, e.operations = [READ_OP]) := by
  constructor
  · intro e he
    obtain ⟨hforms, hitem⟩ := scan_inv cfg s es h e he
    rcases hforms with hf | hf | hf
    · rw [hf]
      refine ⟨by decide, by decide, (List.nil_sublist _).cons₂ _, ?_, ?_⟩
      · intro hx
        exact absurd rfl hx
      · intro hor
        rcases hor with hm | hm <;> exact absurd hm (by decide)
    · rw [hf]
      refine ⟨by decide, by decide, ((List.nil_sublist _).cons₂ _).cons₂ _,
        fun _ => by decide, ?_⟩
      intro hor
      rcases hor with hm | hm <;> exact absurd hm (by decide)
    · rw [hf]
      refine ⟨by decide, by decide, List.Sublist.refl _, fun _ => by decide, ?_⟩
      intro _
      exact ⟨hitem hf, by decide⟩
  · intro hd hro e he
    exact scan_readonly cfg s es hd hro h e he

/-- The single entry the scanner produces for `hostModule`. -/
def hostEntry : EntryPoint :=
  { path := ["host-name"], payload := leafStmt "host-name" "string",
    operations := ["get", "set"], parentKeys := [], ownKeys := [] }

/-- Witness for C6 at the concrete `hostModule`. -/
theorem c6_witness :
    (∀ e ∈ [hostEntry],
      e.operations ≠ [] ∧
      e.operations.head? = some READ_OP ∧
      e.operations.Sublist [READ_OP, CHANGE_OP, ITEM_ADD_OP, ITEM_REMOVE_OP] ∧
      (e.operations ≠ [READ_OP] → CHANGE_OP ∈ e.operations) ∧
      ((ITEM_ADD_OP ∈ e.operations ∨ ITEM_REMOVE_OP ∈ e.operations) →
        e.ownKeys ≠ [] ∧ CHANGE_OP ∈ e.operations)) ∧
    (is_data hostModule = true → is_read_only hostModule = true →
      ∀ e ∈ [hostEntry], e.operations = [READ_OP]) :=
  c6_operations_invariant defaultScannerCfg hostModule [hostEntry] rfl

/-- C10: for every entry point produced by `Scanner.scan`, ITEM_ADD
is in the operations list iff ITEM_REMOVE is, and when they are present
the list is exactly `[READ, CHANGE, ITEM_ADD, ITEM_REMOVE]` (so
add/remove never occur without CHANGE and never on a read-only entry). -/
theorem c10_add_remove_pairing (cfg : ScannerCfg) (s : Statement)
    (es : List EntryPoint) (h : scan cfg s = .ok es) :
    ∀ e ∈ es,
      (ITEM_ADD_OP ∈ e.operations ↔ ITEM_REMOVE_OP ∈ e.operations) ∧
      (ITEM_ADD_OP ∈ e.operations →
        e.operations = [READ_OP, CHANGE_OP, ITEM_ADD_OP, ITEM_REMOVE_OP]) := by
  intro e he
  obtain ⟨hforms, _⟩ := scan_inv cfg s es h e he
  rcases hforms with hf | hf | hf <;> rw [hf]
  · exact ⟨by decide, fun hm => absurd hm (by decide)⟩
  · exact ⟨by decide, fun hm => absurd hm (by decide)⟩
  · exact ⟨by decide, fun _ => by decide⟩

/-- The two entries the scanner produces for `usersModule`. -/
def userNameEntry : EntryPoint :=
  { path := ["user", "name"], payload := nameLeaf, operations := ["get", "set"],
    parentKeys := [("user", [companyLeaf, loginLeaf])], ownKeys := [] }

def userSurnameEntry : EntryPoint :=
  { path := ["user", "surname"], payload := surnameLeaf,
    operations := ["get", "set"],
    parentKeys := [("user", [companyLeaf, loginLeaf])], ownKeys := [] }

/-- Witness for C10 at the concrete `usersModule`, instantiated at its
first entry. -/
theorem c10_witness :
    (ITEM_ADD_OP ∈ userNameEntry.operations ↔
      ITEM_REMOVE_OP ∈ userNameEntry.operations) ∧
    (ITEM_ADD_OP ∈ userNameEntry.operations →
      userNameEntry.operations = [READ_OP, CHANGE_OP, ITEM_ADD_OP, ITEM_REMOVE_OP]) :=
  c10_add_remove_pairing defaultScannerCfg usersModule
    [userNameEntry, userSurnameEntry] rfl userNameEntry (by simp)
